import Mathlib

/-!
Verification of the tcpdump-style filter compiler of the go-pcap repository.

The development shallowly embeds the `filter` package:

* the cBPF instruction set used by the compiler (a faithful rendering of the
  `golang.org/x/net/bpf` constructors that appear in the source), together
  with a small executable interpreter for concrete runs;
* the tokenizer and primitive assembler of `filter/expression.go`
  (`NewExpression`, `Expression.Next`, `Expression.Compile`,
  `setPrimitiveDefaults`), translated clause by clause;
* the codegen helpers of `filter/constants.go` (`checkIP4Addresses`,
  `checkPorts`, `loadIPv4HeaderOffset`, the `compareProtocol*` family,
  `getNetAndMask`, ...);
* the composite stitcher `composite.Compile` / `composite.Size`;
* the per-primitive emitters (`primitive.Compile` / `primitive.Size` are not
  part of the sources; those definitions are modelled from the spec and are
  marked as such in their doc comments).

Machine integers are embedded as `Nat` with explicit `% 256` / `% 2 ^ 32`
wrap-around where the Go source computes in `uint8` / `uint32`.
-/

namespace GoPcap

/-! ## cBPF instructions (the `golang.org/x/net/bpf` subset used by the compiler) -/

/-- Jump conditions used by the compiler: `bpf.JumpEqual` and `bpf.JumpBitsSet`. -/
inductive JumpCond where
  | equal
  | bitsSet
deriving DecidableEq, Repr

/-- The cBPF instruction constructors emitted by the filter compiler:
`bpf.LoadAbsolute`, `bpf.LoadIndirect`, `bpf.LoadMemShift`,
`bpf.ALUOpConstant` (with `ALUOpAnd`), `bpf.JumpIf`, `bpf.Jump`,
`bpf.RetConstant`.  Offsets, sizes, skip counts and constants are `Nat`. -/
inductive Instr where
  | loadAbsolute (off size : Nat)
  | loadIndirect (off size : Nat)
  | loadMemShift (off : Nat)
  | aluAnd (val : Nat)
  | jumpIf (cond : JumpCond) (val skipTrue skipFalse : Nat)
  | jump (skip : Nat)
  | ret (val : Nat)
deriving DecidableEq, Repr

deriving instance DecidableEq for Except

/-- `returnKeep` from `filter/constants.go`: `bpf.RetConstant{Val: 0x40000}`. -/
def returnKeep : Instr := .ret 0x40000

/-- `returnDrop` from `filter/constants.go`: `bpf.RetConstant{Val: 0}`. -/
def returnDrop : Instr := .ret 0

/-- Wrap-around subtraction in `uint8`, as performed by the Go skip
arithmetic `succeed - uint8(len(inst))`. -/
def u8sub (a b : Nat) : Nat := (a % 256 + 256 - b % 256) % 256

/-- Wrap-around subtraction in `uint32`, as performed by the Go skip
arithmetic `size - uint32(len(inst)) - 2`. -/
def u32sub (a b : Nat) : Nat := (a % 2 ^ 32 + 2 ^ 32 - b % 2 ^ 32) % 2 ^ 32

/-! ## Enumerations and token tables of `filter/constants.go` -/

/-- `filterKind`. -/
inductive FilterKind where
  | unset
  | host
  | net
  | port
  | portRange
deriving DecidableEq, Repr

/-- `filterDirection`. -/
inductive FilterDirection where
  | unset
  | srcAndDst
  | srcOrDst
  | src
  | dst
  | ra
  | ta
  | addr1
  | addr2
  | addr3
  | addr4
deriving DecidableEq, Repr

/-- `filterProtocol`. -/
inductive FilterProtocol where
  | unset
  | ether
  | fddi
  | tr
  | wlan
  | ip
  | ip6
  | arp
  | rarp
  | decnet
deriving DecidableEq, Repr

/-- `filterSubProtocol`. -/
inductive FilterSubProtocol where
  | unset
  | ip
  | ip6
  | arp
  | rarp
  | atalk
  | aarp
  | decnet
  | sca
  | lat
  | mopdl
  | moprc
  | iso
  | stp
  | ipx
  | netbeui
  | icmp
  | icmp6
  | igmp
  | igrp
  | pim
  | ah
  | esp
  | vrrp
  | udp
  | tcp
  | unknown
deriving DecidableEq, Repr

/-- The `kinds` lookup table. -/
def kinds : String → Option FilterKind
  | "host" => some .host
  | "net" => some .net
  | "port" => some .port
  | "portrange" => some .portRange
  | _ => none

/-- The `directions` lookup table (the two compound qualifiers are single
keys, exactly as in the Go map). -/
def directions : String → Option FilterDirection
  | "src" => some .src
  | "dst" => some .dst
  | "src and dst" => some .srcAndDst
  | "src or dst" => some .srcOrDst
  | "ra" => some .ra
  | "ta" => some .ta
  | "addr1" => some .addr1
  | "addr2" => some .addr2
  | "addr3" => some .addr3
  | "addr4" => some .addr4
  | _ => none

/-- The `protocols` lookup table (note the `"decnett"` key, kept verbatim
from the source). -/
def protocols : String → Option FilterProtocol
  | "ether" => some .ether
  | "fddi" => some .fddi
  | "tr" => some .tr
  | "wlan" => some .wlan
  | "ip" => some .ip
  | "ip6" => some .ip6
  | "arp" => some .arp
  | "rarp" => some .rarp
  | "decnett" => some .decnet
  | _ => none

/-- The `subProtocols` lookup table (the `"modpl"` and `"morpc"` keys are
kept verbatim from the source). -/
def subProtocols : String → Option FilterSubProtocol
  | "ip" => some .ip
  | "ip6" => some .ip6
  | "arp" => some .arp
  | "rarp" => some .rarp
  | "atalk" => some .atalk
  | "aarp" => some .aarp
  | "decnet" => some .decnet
  | "sca" => some .sca
  | "lat" => some .lat
  | "modpl" => some .mopdl
  | "morpc" => some .moprc
  | "iso" => some .iso
  | "stp" => some .stp
  | "ipx" => some .ipx
  | "netbeui" => some .netbeui
  | "icmp" => some .icmp
  | "icmp6" => some .icmp6
  | "igmp" => some .igmp
  | "igrp" => some .igrp
  | "pim" => some .pim
  | "ah" => some .ah
  | "esp" => some .esp
  | "vrrp" => some .vrrp
  | "udp" => some .udp
  | "tcp" => some .tcp
  | _ => none

/-! ## Primitives and filter elements (`filter/expression.go`) -/

/-- The `primitive` struct.  Field defaults match the zero values used when
`Expression.Next` allocates a fresh primitive. -/
structure Primitive where
  kind : FilterKind := .unset
  direction : FilterDirection := .unset
  protocol : FilterProtocol := .unset
  subProtocol : FilterSubProtocol := .unset
  negator : Bool := false
  id : String := ""
deriving DecidableEq, Repr

/-- A `filterElement` is either a primitive under construction or an
`and` joiner (`and(true)` for `"and"`, `and(false)` for `"or"`). -/
inductive FilterElement where
  | prim (p : Primitive)
  | joiner (isAnd : Bool)
deriving DecidableEq, Repr

/-- The `Filter` values returned by `Expression.Compile`: a single
`primitive`, or a `composite` of primitives with its single `and` flag. -/
inductive Filter where
  | prim (p : Primitive)
  | composite (primitives : List Primitive) (isAnd : Bool)
deriving DecidableEq, Repr

/-- The classification cascade at the bottom of the `words` loop of
`Expression.Next`: `kinds`, then `directions`, then `protocols`, then
`subProtocols`, else the word becomes the `id`. -/
def classifyWord (p : Primitive) (word : String) : Primitive :=
  match kinds word with
  | some k => { p with kind := k }
  | none =>
    match directions word with
    | some d => { p with direction := d }
    | none =>
      match protocols word with
      | some pr => { p with protocol := pr }
      | none =>
        match subProtocols word with
        | some sp => { p with subProtocol := sp }
        | none => { p with id := word }

/-- The `words` loop of `Expression.Next`, phrased on the list of tokens not
yet consumed.  `started` is the Go test `e.current != startCount`.  The
result pairs the produced element with the tokens left over (an `"and"` or
`"or"` that terminates a primitive is left unconsumed, as in the source).
The loop consumes at least one token per iteration, so the structural `fuel`
never runs out when it starts at the token count plus one. -/
def nextLoop : Nat → Primitive → Bool → List String → FilterElement × List String
  | _, p, _, [] => (.prim p, [])
  | 0, p, _, l => (.prim p, l)
  | fuel + 1, p, started, w :: rest =>
    if w = "and" then
      if started then (.prim p, w :: rest) else (.joiner true, rest)
    else if w = "or" then
      if started then (.prim p, w :: rest) else (.joiner false, rest)
    else if w = "not" then
      nextLoop fuel { p with negator := true } true rest
    else if w = "gateway" then
      nextLoop fuel { p with protocol := .ether, kind := .host } true rest
    else if w = "proto" then
      match rest with
      | [] => (.prim p, [])
      | w2 :: rest2 =>
        let protoName := String.mk (w2.data.dropWhile (· = '\\'))
        match subProtocols protoName with
        | some sub => nextLoop fuel { p with subProtocol := sub } true rest2
        | none => nextLoop fuel { p with subProtocol := .unknown, id := protoName } true rest2
    else if w = "src" then
      match rest with
      | j :: w2 :: rest2 =>
        if j = "or" ∨ j = "and" then
          nextLoop fuel (classifyWord p ("src " ++ j ++ " " ++ w2)) true rest2
        else
          nextLoop fuel (classifyWord p w) true (j :: w2 :: rest2)
      | _ => nextLoop fuel (classifyWord p w) true rest
    else
      nextLoop fuel (classifyWord p w) true rest

/-- `Expression.Next`: `nil` when no tokens remain, otherwise one element
plus the remaining tokens. -/
def next : List String → Option (FilterElement × List String)
  | [] => none
  | w :: rest => some (nextLoop (rest.length + 1) {} false (w :: rest))

/-- The element stream of an expression, produced by calling `next` until it
returns `none`.  `next` consumes at least one token per element, so fuel
`ts.length` is exact; the fuelled form only spares a well-founded recursion. -/
def elementsFuel : Nat → List String → List FilterElement
  | 0, _ => []
  | fuel + 1, ts =>
    match next ts with
    | none => []
    | some (fe, rest) => fe :: elementsFuel fuel rest

/-- The sequence of `filterElement`s `Expression.Compile` consumes. -/
def elements (ts : List String) : List FilterElement :=
  elementsFuel ts.length ts

/-- The four defaulting steps at the bottom of `setPrimitiveDefaults`: the
`udp/tcp/icmp ⇒ protocol ip` rule. -/
def defaultProtocolFromSub (p : Primitive) : Primitive :=
  if (p.subProtocol = .udp ∨ p.subProtocol = .tcp ∨ p.subProtocol = .icmp)
      ∧ p.protocol = .unset then
    { p with protocol := .ip }
  else p

/-- The `direction set + ether/ip/ip6/arp/rarp ⇒ kind host` rule. -/
def defaultKindFromDirection (p : Primitive) : Primitive :=
  if p.kind = .unset ∧ p.direction ≠ .unset
      ∧ (p.protocol = .ether ∨ p.protocol = .ip ∨ p.protocol = .ip6
          ∨ p.protocol = .arp ∨ p.protocol = .rarp) then
    { p with kind := .host }
  else p

/-- The `direction unset ⇒ src or dst` rule. -/
def defaultDirection (p : Primitive) : Primitive :=
  if p.direction = .unset then { p with direction := .srcOrDst } else p

/-- The `kind unset ∧ protocol unset ⇒ kind host` rule. -/
def defaultKindHost (p : Primitive) : Primitive :=
  if p.kind = .unset ∧ p.protocol = .unset then { p with kind := .host } else p

/-- The special-case block of `setPrimitiveDefaults`, applied in source
order after the optional carry-forward. -/
def applyDefaultsRest (p : Primitive) : Primitive :=
  defaultKindHost (defaultDirection (defaultKindFromDirection (defaultProtocolFromSub p)))

/-- The guard of the early-return branch of `setPrimitiveDefaults`: all four
qualifier enums are unset (the `id` and `negator` fields are not examined). -/
def allUnsetQualifiers (p : Primitive) : Prop :=
  p.direction = .unset ∧ p.protocol = .unset ∧ p.kind = .unset ∧ p.subProtocol = .unset

instance (p : Primitive) : Decidable (allUnsetQualifiers p) := by
  unfold allUnsetQualifiers; infer_instance

/-- `setPrimitiveDefaults` from `filter/expression.go`.  With no qualifier
set and no preceding primitive the function returns its argument unchanged;
with a preceding primitive it copies that primitive's qualifiers and then
falls through to the special cases. -/
def setPrimitiveDefaults (p : Primitive) (lastPrimitive : Option Primitive) : Primitive :=
  if allUnsetQualifiers p then
    match lastPrimitive with
    | none => p
    | some lp =>
      applyDefaultsRest
        { p with direction := lp.direction, kind := lp.kind,
                 protocol := lp.protocol, subProtocol := lp.subProtocol }
  else applyDefaultsRest p

/-- One turn of the `Expression.Compile` loop: a primitive is defaulted
against the previous accumulated primitive and appended; a joiner overwrites
the composite's single `and` flag. -/
def compileStep (st : List Primitive × Bool) (fe : FilterElement) : List Primitive × Bool :=
  match fe with
  | .prim p => (st.1 ++ [setPrimitiveDefaults p st.1.getLast?], st.2)
  | .joiner b => (st.1, b)

/-- `Expression.Compile`, as a fold over the element stream: builds the
composite, then unwraps it when it holds exactly one primitive. -/
def compileFromElements (es : List FilterElement) : Filter :=
  let st := es.foldl compileStep ([], false)
  match st.1 with
  | [p] => .prim p
  | ps => .composite ps st.2

/-- Accumulator pass of `fields` over the expression's characters. -/
def fieldsAux : List Char → List Char → List String
  | [], acc => if acc.isEmpty then [] else [String.mk acc.reverse]
  | c :: cs, acc =>
    if c.isWhitespace then
      if acc.isEmpty then fieldsAux cs []
      else String.mk acc.reverse :: fieldsAux cs []
    else fieldsAux cs (c :: acc)

/-- `strings.Fields`: split on whitespace runs, dropping empty fields. -/
def fields (s : String) : List String := fieldsAux s.data []

/-- `NewExpression`: `nil` for the empty string, otherwise the tokenized
expression. -/
def newExpression (s : String) : Option (List String) :=
  if s = "" then none else some (fields s)

/-- `Expression.Compile` on a token list. -/
def compileExpr (ts : List String) : Filter :=
  compileFromElements (elements ts)

/-! ## Codegen constants and helpers (`filter/constants.go`)

All programs proved about below are compiled for the Ethernet link type
(`LinkTypeEthernet = 1`), the default of the table-driven tests. -/

def lengthByte : Nat := 1
def lengthHalf : Nat := 2
def lengthWord : Nat := 4
def etherTypeIPv4 : Nat := 0x0800
def etherTypeIPv6 : Nat := 0x86dd
def etherTypeArp : Nat := 0x806
def etherTypeRarp : Nat := 0x8035
def jumpMask : Nat := 0x1fff
def ipProtocolTcp : Nat := 0x06
def ipProtocolUdp : Nat := 0x11
def ipProtocolSctp : Nat := 0x84
def LinkTypeNull : Nat := 0x0
def LinkTypeEthernet : Nat := 0x01

/-- `linkTypeOffset`: 4 for the BSD loopback header, 14 for Ethernet. -/
def linkTypeOffset (linkType : Nat) : Nat :=
  if linkType = LinkTypeNull then 4 else 14

/-- `loadEtherKind` (for the Null link the 4-byte protocol family sits at
offset 0; for Ethernet the EtherType halfword sits at offset 12). -/
def loadEtherKind (linkType : Nat) : Instr :=
  if linkType = LinkTypeNull then .loadAbsolute 0 lengthWord
  else .loadAbsolute 12 lengthHalf

def loadIPv4SourceAddress (linkType : Nat) : Instr :=
  .loadAbsolute (linkTypeOffset linkType + 12) lengthWord

def loadIPv4DestinationAddress (linkType : Nat) : Instr :=
  .loadAbsolute (linkTypeOffset linkType + 16) lengthWord

def loadArpSenderAddress (linkType : Nat) : Instr :=
  .loadAbsolute (linkTypeOffset linkType + 14) lengthWord

def loadArpTargetAddress (linkType : Nat) : Instr :=
  .loadAbsolute (linkTypeOffset linkType + 24) lengthWord

def loadIPv4SourcePort (linkType : Nat) : Instr :=
  .loadIndirect (linkTypeOffset linkType) lengthHalf

def loadIPv4DestinationPort (linkType : Nat) : Instr :=
  .loadIndirect (linkTypeOffset linkType + 2) lengthHalf

def loadIPv4Protocol (linkType : Nat) : Instr :=
  .loadAbsolute (linkTypeOffset linkType + 9) lengthByte

def loadIPv6SourcePort (linkType : Nat) : Instr :=
  .loadAbsolute (linkTypeOffset linkType + 40) lengthHalf

def loadIPv6DestinationPort (linkType : Nat) : Instr :=
  .loadAbsolute (linkTypeOffset linkType + 42) lengthHalf

def loadIPv6Protocol (linkType : Nat) : Instr :=
  .loadAbsolute (linkTypeOffset linkType + 6) lengthByte

/-- `loadIPv4HeaderOffset`: the three instructions that locate the L4 header
behind a variable-length IPv4 header (fragment check plus `LoadMemShift`). -/
def loadIPv4HeaderOffset (linkType skipFail : Nat) : List Instr :=
  [ .loadAbsolute (linkTypeOffset linkType + 6) lengthHalf,
    .jumpIf .bitsSet jumpMask (u8sub skipFail 1) 0,
    .loadMemShift (linkTypeOffset linkType) ]

/-- `compareProtocolIP4` for the Ethernet link type (the Null-link `AF_INET`
constant lives in a platform file that is not part of the sources). -/
def compareProtocolIP4 (skipTrue skipFalse : Nat) : Instr :=
  .jumpIf .equal etherTypeIPv4 skipTrue skipFalse

/-- `compareProtocolIP6` for the Ethernet link type. -/
def compareProtocolIP6 (skipTrue skipFalse : Nat) : Instr :=
  .jumpIf .equal etherTypeIPv6 skipTrue skipFalse

def compareProtocolArp (skipTrue skipFalse : Nat) : Instr :=
  .jumpIf .equal etherTypeArp skipTrue skipFalse

def compareProtocolRarp (skipTrue skipFalse : Nat) : Instr :=
  .jumpIf .equal etherTypeRarp skipTrue skipFalse

def compareSubProtocolTCP (skipTrue skipFalse : Nat) : Instr :=
  .jumpIf .equal ipProtocolTcp skipTrue skipFalse

def compareSubProtocolUDP (skipTrue skipFalse : Nat) : Instr :=
  .jumpIf .equal ipProtocolUdp skipTrue skipFalse

def compareSubProtocolSctp (skipTrue skipFalse : Nat) : Instr :=
  .jumpIf .equal ipProtocolSctp skipTrue skipFalse

/-- `checkIP4Addresses`: the source/destination address comparison block.
`addrVal` is `binary.BigEndian.Uint32` of the address' last four bytes, and
`maskCheck` the optional `ALUOpAnd` netmask instruction, both computed by the
callers exactly as in the source.  The skip arithmetic
`succeed - uint8(len(inst))` is rendered with `u8sub`. -/
def checkIP4Addresses (linkType : Nat) (direction : FilterDirection)
    (addrVal : Nat) (maskCheck : Option Nat) (fail succeed : Nat)
    (loadSource loadTarget : Nat → Instr) : List Instr :=
  let maskInstrs : List Instr := match maskCheck with
    | some m => [.aluAnd m]
    | none => []
  match direction with
  | .src =>
    let i1 := [loadSource linkType] ++ maskInstrs
    i1 ++ [.jumpIf .equal addrVal (u8sub succeed i1.length) (u8sub fail i1.length)]
  | .dst =>
    let i1 := [loadTarget linkType] ++ maskInstrs
    i1 ++ [.jumpIf .equal addrVal (u8sub succeed i1.length) (u8sub fail i1.length)]
  | .srcOrDst =>
    let i1 := [loadSource linkType] ++ maskInstrs
    let i2 := i1 ++ [.jumpIf .equal addrVal (u8sub succeed i1.length) 0]
      ++ [loadTarget linkType] ++ maskInstrs
    i2 ++ [.jumpIf .equal addrVal (u8sub succeed i2.length) (u8sub fail i2.length)]
  | .srcAndDst =>
    let i1 := [loadSource linkType] ++ maskInstrs
    let i2 := i1 ++ [.jumpIf .equal addrVal 0 (u8sub fail i1.length)]
      ++ [loadTarget linkType] ++ maskInstrs
    i2 ++ [.jumpIf .equal addrVal (u8sub succeed i2.length) (u8sub fail i2.length)]
  | _ => []

/-- `checkPorts`: the port comparison block; for IPv4 it is preceded by the
`loadIPv4HeaderOffset` prelude and the `fail`/`succeed` targets are shifted
by its three instructions. -/
def checkPorts (linkType : Nat) (direction : FilterDirection) (port : Nat)
    (fail succeed : Nat) (ip6 : Bool) : List Instr :=
  let loadSource := if ip6 then loadIPv6SourcePort linkType else loadIPv4SourcePort linkType
  let loadDestination :=
    if ip6 then loadIPv6DestinationPort linkType else loadIPv4DestinationPort linkType
  let preInst : List Instr := if ip6 then [] else loadIPv4HeaderOffset linkType fail
  let fail' := if ip6 then fail else u8sub fail 3
  let succeed' := if ip6 then succeed else u8sub succeed 3
  preInst ++
    match direction with
    | .src =>
      [loadSource, .jumpIf .equal port (u8sub succeed' 1) (u8sub fail' 1)]
    | .dst =>
      [loadDestination, .jumpIf .equal port (u8sub succeed' 1) (u8sub fail' 1)]
    | .srcOrDst =>
      [loadSource, .jumpIf .equal port (u8sub succeed' 1) 0,
       loadDestination, .jumpIf .equal port (u8sub succeed' 3) (u8sub fail' 3)]
    | .srcAndDst =>
      [loadSource, .jumpIf .equal port 0 (u8sub fail' 1),
       loadDestination, .jumpIf .equal port (u8sub succeed' 3) (u8sub fail' 3)]
    | _ => []

/-- Decimal digits to a number; `none` on an empty or non-digit string
(the acceptance of `strconv`-style parsing used by the address forms). -/
def decDigitsAux : List Char → Nat → Option Nat
  | [], acc => some acc
  | c :: cs, acc =>
    if c.isDigit then decDigitsAux cs (acc * 10 + (c.toNat - '0'.toNat)) else none

/-- Parse a decimal natural number; `none` on an empty or non-digit string. -/
def decNat? (s : String) : Option Nat :=
  if s.data.isEmpty then none else decDigitsAux s.data 0

/-- Split a string on a separator character (`strings.Split` for the
single-character separators used here). -/
def splitOnCharAux (sep : Char) : List Char → List Char → List String
  | [], acc => [String.mk acc.reverse]
  | c :: cs, acc =>
    if c = sep then String.mk acc.reverse :: splitOnCharAux sep cs []
    else splitOnCharAux sep cs (c :: acc)

def splitOnChar (s : String) (sep : Char) : List String :=
  splitOnCharAux sep s.data []

/-- Decimal octet of a dotted quad (`net.ParseIP` building block). -/
def decOctet (s : String) : Option Nat :=
  match decNat? s with
  | some n => if n ≤ 255 then some n else none
  | none => none

/-- `net.ParseIP` restricted to the IPv4 dotted-quad form used by the
claims, returning the address as its 32-bit big-endian value. -/
def parseIPv4 (s : String) : Option Nat :=
  match (splitOnChar s '.').mapA decOctet with
  | some [a, b, c, d] => some (((a * 256 + b) * 256 + c) * 256 + d)
  | _ => none

/-- The 32-bit mask with the top `n` bits set (`net.CIDRMask n 32`). -/
def cidrMask32 (n : Nat) : Nat := (0xffffffff <<< (32 - n)) % 2 ^ 32

/-- `getNetAndMask` from `filter/constants.go`, for the IPv4 forms the
claims exercise: a bare address gets the full `0xffffffff` mask; otherwise
the id is parsed as a CIDR (`net.ParseCIDR`, which masks the network
address); anything else is the `invalid net` error.  Returns
(address, network, mask) as 32-bit values. -/
def getNetAndMask (id : String) : Except String (Nat × Nat × Nat) :=
  match parseIPv4 id with
  | some a => .ok (a, a, 0xffffffff)
  | none =>
    match splitOnChar id '/' with
    | [ip, bits] =>
      match parseIPv4 ip, decNat? bits with
      | some a, some n =>
        if n ≤ 32 then .ok (a, a &&& cidrMask32 n, cidrMask32 n)
        else .error ("invalid net: " ++ id)
      | _, _ => .error ("invalid net: " ++ id)
    | _ => .error ("invalid net: " ++ id)

/-- `checkIP4NetAddresses`: computes the optional mask instruction (omitted
when the mask is the full `0xffffffff`) and defers to `checkIP4Addresses`
with the IPv4 or ARP address loaders. -/
def checkIP4NetAddresses (linkType : Nat) (direction : FilterDirection)
    (addr : String) (ip : Bool) (fail succeed : Nat) : List Instr :=
  match getNetAndMask addr with
  | .error _ => []
  | .ok (addrVal, _, mask) =>
    let maskCheck : Option Nat := if mask = 0xffffffff then none else some mask
    let loadSource := if ip then loadIPv4SourceAddress else loadArpSenderAddress
    let loadTarget := if ip then loadIPv4DestinationAddress else loadArpTargetAddress
    checkIP4Addresses linkType direction addrVal maskCheck fail succeed loadSource loadTarget

/-! ## Composite stitching (`composite.Compile`, `composite.Size`) -/

/-- `pinst[:len(pinst)-2]`: a child's program with its two terminal returns
stripped. -/
def dropReturns (l : List Instr) : List Instr := l.take (l.length - 2)

/-- The two inter-child `bpf.Jump`s of `composite.Compile`.  Under AND the
pair is `Jump{1}; Jump{size - len(inst) - 2}` (computed after the first jump
is appended); under OR it is `Jump{size - len(inst) - 3}; Jump{0}`.  The
`uint32` arithmetic is rendered with `u32sub`. -/
def stitchStep (isAnd : Bool) (size : Nat) (acc body : List Instr) : List Instr :=
  if isAnd then
    (acc ++ body) ++
      [.jump 1, .jump (u32sub (u32sub size ((acc ++ body).length + 1)) 2)]
  else
    (acc ++ body) ++
      [.jump (u32sub (u32sub size (acc ++ body).length) 3), .jump 0]

/-- The loop of `composite.Compile` over the children's compiled programs:
every child but the last loses its terminal returns and is followed by the
two inter-child jumps; the last child is appended whole. -/
def stitch (isAnd : Bool) (size : Nat) : List Instr → List (List Instr) → List Instr
  | acc, [] => acc
  | acc, [c] => acc ++ c
  | acc, c :: c2 :: rest =>
    stitch isAnd size (stitchStep isAnd size acc (dropReturns c)) (c2 :: rest)

/-! ## Per-primitive emitters

`primitive.Compile` and `primitive.Size` are not part of the sources (only
their callers and their table-driven expectations are), so the emitters
below are modelled from the spec, §4.4; the layouts agree instruction by
instruction with the expected streams recorded in the repository's test
table (`testCasesExpressionFilterInstructions`). -/

/-- Modelled from the spec, §4.4.11: the terminal pair `RET(ACCEPT);
RET(DROP)`, swapped when the primitive is negated. -/
def terminalInstructions (negator : Bool) : List Instr :=
  if negator then [returnDrop, returnKeep] else [returnKeep, returnDrop]

/-- Modelled from the spec, §4.4.2/§4.4.4: the all-protocols IPv4 host/net
layout.  An EtherType==IPv4 guard leads into the IPv4 address block; its
fall-through checks ARP then RARP and runs the same block against the ARP
sender/target addresses; both blocks jump to the shared terminal pair.
`ipBlock`/`arpBlock` take their `fail`/`succeed` distances (skip counts as
seen from the block's first instruction) and `blockLen` is their common
length, from which every skip distance is computed. -/
def ip4FamilyProgram (ipBlock arpBlock : Nat → Nat → List Instr)
    (blockLen : Nat) (negator : Bool) : List Instr :=
  [loadEtherKind LinkTypeEthernet, compareProtocolIP4 0 blockLen]
    ++ ipBlock (2 * blockLen + 2) (2 * blockLen + 1)
    ++ [compareProtocolArp 1 0, compareProtocolRarp 0 (blockLen + 1)]
    ++ arpBlock blockLen (blockLen - 1)
    ++ terminalInstructions negator

/-- Modelled from the spec, §4.4.2: `host` on a literal IPv4 address with no
protocol qualifier (the `src or dst` form used by the claims). -/
def hostIP4AllProgram (addrVal : Nat) (direction : FilterDirection)
    (negator : Bool) : List Instr :=
  let ipBlock := fun fail succeed =>
    checkIP4Addresses LinkTypeEthernet direction addrVal none fail succeed
      loadIPv4SourceAddress loadIPv4DestinationAddress
  let arpBlock := fun fail succeed =>
    checkIP4Addresses LinkTypeEthernet direction addrVal none fail succeed
      loadArpSenderAddress loadArpTargetAddress
  ip4FamilyProgram ipBlock arpBlock (ipBlock 0 0).length negator

/-- Modelled from the spec, §4.4.4: `net` on an IPv4 address or CIDR with no
protocol qualifier; the address blocks come from the source's
`checkIP4NetAddresses`. -/
def netIP4AllProgram (id : String) (direction : FilterDirection)
    (negator : Bool) : List Instr :=
  let ipBlock := fun fail succeed =>
    checkIP4NetAddresses LinkTypeEthernet direction id true fail succeed
  let arpBlock := fun fail succeed =>
    checkIP4NetAddresses LinkTypeEthernet direction id false fail succeed
  ip4FamilyProgram ipBlock arpBlock (ipBlock 0 0).length negator

/-- Modelled from the spec, §4.4.5: `port` with no transport qualifier.  The
IPv6 section guards on EtherType==IPv6, accepts any of SCTP/TCP/UDP, and
compares the fixed-offset IPv6 ports; the IPv4 section guards on
EtherType==IPv4, repeats the protocol alternatives and compares the ports
behind the variable-length IPv4 header (`checkPorts`).  The terminal pair
sits at offsets 22 and 23, from which all skip distances are computed. -/
def portAllProgram (port : Nat) (direction : FilterDirection)
    (negator : Bool) : List Instr :=
  [ loadEtherKind LinkTypeEthernet,
    compareProtocolIP6 0 8,
    loadIPv6Protocol LinkTypeEthernet,
    compareSubProtocolSctp 2 0,
    compareSubProtocolTCP 1 0,
    compareSubProtocolUDP 0 17 ]
    ++ checkPorts LinkTypeEthernet direction port 16 15 true
    ++ [ compareProtocolIP4 0 12,
         loadIPv4Protocol LinkTypeEthernet,
         compareSubProtocolSctp 2 0,
         compareSubProtocolTCP 1 0,
         compareSubProtocolUDP 0 8 ]
    ++ checkPorts LinkTypeEthernet direction port 7 6 false
    ++ terminalInstructions negator

/-- Modelled from the spec, §4.4 and §7: `primitive.Compile` for the
primitive shapes the claims exercise (IPv4 `host`, `net` and transportless
`port` in their `src or dst` form).  A `host` id carrying a CIDR suffix is
the `invalid host address with CIDR` error; a `net` whose address has bits
past its mask is the `invalid network, network bits extend past mask bits`
error; a bare primitive with no kind and no protocol qualifier is the
`parse error` of the test table.  Shapes outside the claims are reported as
unmodelled rather than given made-up code. -/
def primitiveCompile (p : Primitive) : Except String (List Instr) :=
  match p.kind with
  | .host =>
    if p.id.data.contains '/' then
      .error ("invalid host address with CIDR: " ++ p.id)
    else
      match parseIPv4 p.id with
      | some addrVal =>
        if p.protocol = .unset ∧ p.direction = .srcOrDst then
          .ok (hostIP4AllProgram addrVal p.direction p.negator)
        else .error "unmodelled primitive shape"
      | none => .error ("unknown host: " ++ p.id)
  | .net =>
    match getNetAndMask p.id with
    | .error e => .error e
    | .ok (addrVal, _, mask) =>
      if addrVal &&& (0xffffffff ^^^ mask) ≠ 0 then
        .error ("invalid network, network bits extend past mask bits: " ++ p.id)
      else if p.protocol = .unset ∧ p.direction = .srcOrDst then
        .ok (netIP4AllProgram p.id p.direction p.negator)
      else .error "unmodelled primitive shape"
  | .port =>
    match decNat? p.id with
    | some port =>
      if p.protocol = .unset ∧ p.subProtocol = .unset ∧ p.direction = .srcOrDst then
        .ok (portAllProgram port p.direction p.negator)
      else .error "unmodelled primitive shape"
    | none => .error ("invalid port: " ++ p.id)
  | .unset => .error "parse error"
  | .portRange => .error "unmodelled primitive shape"

/-- Modelled from the spec, §4.4.1 (size predictability): every emitter
announces exactly the number of instructions it emits, so `primitive.Size`
is the emitted length (and `0` on the error paths, which the composite
callers never reach). -/
def primitiveSize (p : Primitive) : Nat :=
  match primitiveCompile p with
  | .ok l => l.length
  | .error _ => 0

/-- `Filter.Compile`: a primitive compiles through its emitter; a composite
compiles each child, sums the announced sizes in `uint8` (`composite.Size`)
and stitches the child programs (`composite.Compile`). -/
def filterCompile (f : Filter) : Except String (List Instr) :=
  match f with
  | .prim p => primitiveCompile p
  | .composite ps isAnd => do
    let progs ← ps.mapM primitiveCompile
    pure (stitch isAnd ((ps.map primitiveSize).sum % 256) [] progs)

/-- Modelled from the spec, §4.1 and §8.4: the top-level compile entry.  The
empty expression (for which `NewExpression` returns `nil`) compiles to the
trivial accept-all `[RET(ACCEPT)]`; any other expression is tokenized,
assembled and compiled as in the sources. -/
def modelCompileExpression (s : String) : Except String (List Instr) :=
  match newExpression s with
  | none => .ok [returnKeep]
  | some ts => filterCompile (compileExpr ts)

/-! ## A cBPF interpreter for concrete runs

Faithful to the `golang.org/x/net/bpf` virtual machine on the instruction
subset above: big-endian loads, an accumulator `a` and index register `x`,
forward-only jumps, `RetConstant` terminating with its constant.  A load
past the end of the packet terminates with value 0 (drop). -/

/-- Big-endian read of `size` bytes at `off`. -/
def loadBytesBE (pkt : List Nat) (off size : Nat) : Option Nat :=
  if off + size ≤ pkt.length then
    some ((List.range size).foldl (fun a i => a * 256 + pkt.getD (off + i) 0) 0)
  else none

/-- One bounded run of a program; the fuel only bounds the number of
executed instructions and `prog.length + 1` is always enough because every
jump is forward. -/
def vmRunFuel (prog : List Instr) (pkt : List Nat) :
    Nat → Nat → Nat → Nat → Option Nat
  | 0, _, _, _ => none
  | fuel + 1, pc, a, x =>
    match prog[pc]? with
    | none => none
    | some (.loadAbsolute off size) =>
      match loadBytesBE pkt off size with
      | none => some 0
      | some v => vmRunFuel prog pkt fuel (pc + 1) v x
    | some (.loadIndirect off size) =>
      match loadBytesBE pkt (x + off) size with
      | none => some 0
      | some v => vmRunFuel prog pkt fuel (pc + 1) v x
    | some (.loadMemShift off) =>
      match loadBytesBE pkt off 1 with
      | none => some 0
      | some v => vmRunFuel prog pkt fuel (pc + 1) a (4 * (v % 16))
    | some (.aluAnd val) => vmRunFuel prog pkt fuel (pc + 1) (a &&& val) x
    | some (.jumpIf cond val st sf) =>
      let taken : Bool := match cond with
        | .equal => a = val
        | .bitsSet => a &&& val ≠ 0
      vmRunFuel prog pkt fuel (pc + 1 + (if taken then st else sf)) a x
    | some (.jump s) => vmRunFuel prog pkt fuel (pc + 1 + s) a x
    | some (.ret v) => some v

/-- Run a program on a packet from the initial state. -/
def vmRun (prog : List Instr) (pkt : List Nat) : Option Nat :=
  vmRunFuel prog pkt (prog.length + 1) 0 0 0

/-! ## Well-formedness predicates on instruction streams -/

/-- Both branches of the instruction at index `i` stay inside a stream of
`len` instructions (skip counts address the instruction after the next
one). -/
def instrInBounds (len i : Nat) : Instr → Prop
  | .jumpIf _ _ st sf => i + 1 + st < len ∧ i + 1 + sf < len
  | .jump s => i + 1 + s < len
  | _ => True

instance (len i : Nat) (ins : Instr) : Decidable (instrInBounds len i ins) := by
  cases ins <;> simp only [instrInBounds] <;> infer_instance

/-- Every jump of the program stays inside the program. -/
def jumpsInBounds (prog : List Instr) : Prop :=
  ∀ i, i < prog.length → instrInBounds prog.length i (prog.getD i (.jump 0))

instance (prog : List Instr) : Decidable (jumpsInBounds prog) :=
  Nat.decidableBallLT _ _

/-- The stream ends with the two terminal returns, `RET(ACCEPT); RET(DROP)`,
or the swapped pair produced under negation. -/
def endsWithTerminalPair (prog : List Instr) : Prop :=
  prog.drop (prog.length - 2) = [returnKeep, returnDrop]
  ∨ prog.drop (prog.length - 2) = [returnDrop, returnKeep]

instance (prog : List Instr) : Decidable (endsWithTerminalPair prog) := by
  unfold endsWithTerminalPair; infer_instance

/-! ## Properties of the composite stitcher -/

lemma u32sub_eq_sub {a b : Nat} (ha : a < 2 ^ 32) (hb : b ≤ a) : u32sub a b = a - b := by
  unfold u32sub
  rw [Nat.mod_eq_of_lt ha, Nat.mod_eq_of_lt (lt_of_le_of_lt hb ha)]
  have h1 : a + 2 ^ 32 - b = (a - b) + 2 ^ 32 := by omega
  rw [h1, Nat.add_mod_right, Nat.mod_eq_of_lt (by omega)]

lemma u32sub_sub {a b c : Nat} (h32 : a < 2 ^ 32) (h : b + c ≤ a) :
    u32sub (u32sub a b) c = a - b - c := by
  rw [u32sub_eq_sub h32 (by omega)]
  exact u32sub_eq_sub (by omega) (by omega)

lemma dropReturns_length (l : List Instr) : (dropReturns l).length = l.length - 2 := by
  simp [dropReturns]

lemma stitchStep_length (f : Bool) (size : Nat) (acc body : List Instr) :
    (stitchStep f size acc body).length = acc.length + body.length + 2 := by
  unfold stitchStep
  split <;> simp <;> omega

/-- The emitted length of a composite: every child contributes exactly its
own length (the two stripped returns are replaced by the two inter-child
jumps; the last child keeps its returns). -/
lemma stitch_length (f : Bool) (size : Nat) :
    ∀ (children : List (List Instr)) (acc : List Instr), children ≠ [] →
      (∀ c ∈ children, 2 ≤ c.length) →
      (stitch f size acc children).length = acc.length + (children.map List.length).sum := by
  intro children
  induction children with
  | nil => intro acc h; exact absurd rfl h
  | cons c rest ih =>
    intro acc _ hlen
    cases rest with
    | nil => simp [stitch]
    | cons c2 rest2 =>
      rw [stitch, ih _ (by simp) (fun x hx => hlen x (List.mem_cons_of_mem _ hx))]
      have h2 : 2 ≤ c.length := hlen c (List.mem_cons_self _ _)
      simp [stitchStep_length, dropReturns_length]
      omega

/-- The stitched stream ends with the last child (as a list suffix). -/
lemma stitch_suffix (f : Bool) (size : Nat) :
    ∀ (children : List (List Instr)) (acc : List Instr) (c : List Instr),
      children.getLast? = some c →
      ∃ pre, stitch f size acc children = pre ++ c := by
  intro children
  induction children with
  | nil => intro acc c h; simp at h
  | cons c1 rest ih =>
    intro acc c h
    cases rest with
    | nil =>
      simp at h
      exact ⟨acc, by simp [stitch, h]⟩
    | cons c2 rest2 =>
      rw [List.getLast?_cons_cons] at h
      exact ih _ c h

lemma instr_shift {L o size j : Nat} {ins : Instr}
    (h : instrInBounds L j ins) (ho : o + L ≤ size) :
    instrInBounds size (o + j) ins := by
  cases ins <;> simp [instrInBounds] at h ⊢ <;> omega

lemma inBounds_append {size : Nat} {a b : List Instr}
    (ha : ∀ i, i < a.length → instrInBounds size i (a.getD i (.jump 0)))
    (hb : ∀ j, j < b.length → instrInBounds size (a.length + j) (b.getD j (.jump 0))) :
    ∀ i, i < (a ++ b).length → instrInBounds size i ((a ++ b).getD i (.jump 0)) := by
  intro i hi
  rcases Nat.lt_or_ge i a.length with h | h
  · rw [List.getD_append _ _ _ _ h]
    exact ha i h
  · rw [List.getD_append_right _ _ _ _ h]
    have hj : i - a.length < b.length := by
      simp [List.length_append] at hi
      omega
    have hres := hb (i - a.length) hj
    rwa [Nat.add_sub_cancel' h] at hres

lemma getD_take {l : List Instr} {k j : Nat} (h : j < k) :
    (l.take k).getD j (.jump 0) = l.getD j (.jump 0) := by
  rw [List.getD_eq_getD_get?, List.getD_eq_getD_get?, List.get?_eq_getElem?,
    List.get?_eq_getElem?, List.getElem?_take_of_lt h]

/-- Every jump of the stitched stream stays inside the stream: body jumps
keep their child-local targets (which now land on the interposed jumps where
the child's returns used to sit), and the interposed jumps land on the next
child or on the shared terminal pair. -/
lemma stitch_bounds_aux (f : Bool) (size : Nat) (hsz32 : size < 2 ^ 32) :
    ∀ (children : List (List Instr)) (acc : List Instr),
      children ≠ [] →
      size = acc.length + (children.map List.length).sum →
      (∀ c ∈ children, 2 ≤ c.length) →
      (∀ c ∈ children, jumpsInBounds c) →
      (∀ i, i < acc.length → instrInBounds size i (acc.getD i (.jump 0))) →
      ∀ i, i < (stitch f size acc children).length →
        instrInBounds size i ((stitch f size acc children).getD i (.jump 0)) := by
  intro children
  induction children with
  | nil => intro acc h; exact absurd rfl h
  | cons c rest ih =>
    intro acc _ hsz hlen hjb hacc
    have hc2 : 2 ≤ c.length := hlen c (List.mem_cons_self _ _)
    have hcjb : jumpsInBounds c := hjb c (List.mem_cons_self _ _)
    cases rest with
    | nil =>
      -- the last child is appended whole
      simp only [stitch]
      have hsz' : acc.length + c.length = size := by
        simp at hsz
        omega
      exact inBounds_append hacc (fun j hj => by
        have := hcjb j hj
        exact instr_shift this (le_of_eq hsz'))
    | cons c2 rest2 =>
      -- strip the returns, add the two inter-child jumps, recurse
      rw [stitch]
      have hrest : (c2 :: rest2) ≠ [] := by simp
      have hsum2 : 2 ≤ ((c2 :: rest2).map List.length).sum := by
        have := hlen c2 (List.mem_cons_of_mem _ (List.mem_cons_self _ _))
        simp
        omega
      have hszc : acc.length + c.length + ((c2 :: rest2).map List.length).sum = size := by
        simp at hsz ⊢
        omega
      apply ih _ hrest
      · rw [stitchStep_length, dropReturns_length]
        omega
      · exact fun x hx => hlen x (List.mem_cons_of_mem _ hx)
      · exact fun x hx => hjb x (List.mem_cons_of_mem _ hx)
      · -- the extended accumulator stays in bounds
        unfold stitchStep
        have hbody : ∀ j, j < (dropReturns c).length →
            instrInBounds size (acc.length + j) ((dropReturns c).getD j (.jump 0)) := by
          intro j hj
          rw [dropReturns_length] at hj
          rw [dropReturns, getD_take hj]
          have := hcjb j (by omega)
          exact instr_shift this (by omega)
        have haccbody : ∀ i, i < (acc ++ dropReturns c).length →
            instrInBounds size i ((acc ++ dropReturns c).getD i (.jump 0)) :=
          inBounds_append hacc hbody
        have hq : (acc ++ dropReturns c).length = acc.length + c.length - 2 := by
          simp [dropReturns_length]
          omega
        split
        · -- AND: Jump{1}; Jump{size - len - 2}
          apply inBounds_append haccbody
          intro j hj
          simp only [List.length_cons, List.length_nil] at hj
          interval_cases j
          · simp only [List.getD_cons_zero, instrInBounds]
            omega
          · simp only [List.getD_cons_succ, List.getD_cons_zero, instrInBounds]
            rw [u32sub_sub hsz32 (by omega)]
            omega
        · -- OR: Jump{size - len - 3}; Jump{0}
          apply inBounds_append haccbody
          intro j hj
          simp only [List.length_cons, List.length_nil] at hj
          interval_cases j
          · simp only [List.getD_cons_zero, instrInBounds]
            rw [u32sub_sub hsz32 (by omega)]
            omega
          · simp only [List.getD_cons_succ, List.getD_cons_zero, instrInBounds]
            omega

/-! ## Properties of `Expression.Compile` -/

/-- The composite's `and` flag after the compile loop: each joiner element
overwrites it, so it ends as the last joiner's value (starting from `d`,
which is `false` for a fresh composite). -/
def lastJoiner (es : List FilterElement) (d : Bool) : Bool :=
  es.foldl (fun acc e => match e with | .joiner b => b | .prim _ => acc) d

/-- The primitives accumulated by the compile loop: every parsed primitive,
in order, with defaults applied against the previously accumulated one;
joiner elements contribute nothing to the list. -/
def defaultedPrimitives (es : List FilterElement) (acc : List Primitive) : List Primitive :=
  es.foldl
    (fun ps e =>
      match e with
      | .prim p => ps ++ [setPrimitiveDefaults p ps.getLast?]
      | .joiner _ => ps)
    acc

lemma compile_fold_eq (es : List FilterElement) :
    ∀ (ps : List Primitive) (b : Bool),
      es.foldl compileStep (ps, b) = (defaultedPrimitives es ps, lastJoiner es b) := by
  induction es with
  | nil => intro ps b; simp [defaultedPrimitives, lastJoiner]
  | cons e rest ih =>
    intro ps b
    cases e with
    | prim p =>
      simpa [defaultedPrimitives, lastJoiner, compileStep]
        using ih (ps ++ [setPrimitiveDefaults p ps.getLast?]) b
    | joiner j =>
      simpa [defaultedPrimitives, lastJoiner, compileStep] using ih ps j

/-! ## Properties of `setPrimitiveDefaults` -/

lemma applyDefaultsRest_direction (p : Primitive) :
    (applyDefaultsRest p).direction
      = if p.direction = .unset then .srcOrDst else p.direction := by
  unfold applyDefaultsRest defaultKindHost defaultDirection defaultKindFromDirection
    defaultProtocolFromSub
  split_ifs <;> simp_all

/-- A list that sums the lengths of non-trivial children also satisfies the
spec's additive form. -/
lemma sum_length_split (children : List (List Instr))
    (hlen : ∀ c ∈ children, 2 ≤ c.length) :
    (children.map List.length).sum
      = (children.map (fun c => c.length - 2)).sum + 2 * children.length := by
  induction children with
  | nil => simp
  | cons c rest ih =>
    have h2 := hlen c (List.mem_cons_self _ _)
    have := ih (fun x hx => hlen x (List.mem_cons_of_mem _ hx))
    simp [this]
    omega

/-! ## Concrete programs and frames

The instruction streams below are transcribed from the repository's test
table `testCasesExpressionFilterInstructions` (`0x0a646464` is
`10.100.100.100`, `0xc0a80000` is `192.168.0.0`). -/

/-- The 14-instruction `src or dst host 10.100.100.100` program of the test
table. -/
def hostTenProgram : List Instr := [
  .loadAbsolute 12 2,
  .jumpIf .equal 0x800 0 4,
  .loadAbsolute 26 4,
  .jumpIf .equal 0x0a646464 8 0,
  .loadAbsolute 30 4,
  .jumpIf .equal 0x0a646464 6 7,
  .jumpIf .equal 0x806 1 0,
  .jumpIf .equal 0x8035 0 5,
  .loadAbsolute 28 4,
  .jumpIf .equal 0x0a646464 2 0,
  .loadAbsolute 38 4,
  .jumpIf .equal 0x0a646464 0 1,
  .ret 262144,
  .ret 0 ]

/-- The 24-instruction transportless `port 23` program of the test table. -/
def portTwentyThreeProgram : List Instr := [
  .loadAbsolute 12 2,
  .jumpIf .equal 0x86dd 0 8,
  .loadAbsolute 20 1,
  .jumpIf .equal 0x84 2 0,
  .jumpIf .equal 0x06 1 0,
  .jumpIf .equal 0x11 0 17,
  .loadAbsolute 54 2,
  .jumpIf .equal 0x17 14 0,
  .loadAbsolute 56 2,
  .jumpIf .equal 0x17 12 13,
  .jumpIf .equal 0x800 0 12,
  .loadAbsolute 23 1,
  .jumpIf .equal 0x84 2 0,
  .jumpIf .equal 0x06 1 0,
  .jumpIf .equal 0x11 0 8,
  .loadAbsolute 20 2,
  .jumpIf .bitsSet 0x1fff 6 0,
  .loadMemShift 14,
  .loadIndirect 14 2,
  .jumpIf .equal 0x17 2 0,
  .loadIndirect 16 2,
  .jumpIf .equal 0x17 0 1,
  .ret 262144,
  .ret 0 ]

/-- The 38-instruction `host 10.100.100.100 or port 23` OR-composite of the
test table: the host block with its returns replaced by `Jump{23}; Jump{0}`,
followed by the whole port program. -/
def hostOrPortProgram : List Instr := [
  .loadAbsolute 12 2,
  .jumpIf .equal 0x800 0 4,
  .loadAbsolute 26 4,
  .jumpIf .equal 0x0a646464 8 0,
  .loadAbsolute 30 4,
  .jumpIf .equal 0x0a646464 6 7,
  .jumpIf .equal 0x806 1 0,
  .jumpIf .equal 0x8035 0 5,
  .loadAbsolute 28 4,
  .jumpIf .equal 0x0a646464 2 0,
  .loadAbsolute 38 4,
  .jumpIf .equal 0x0a646464 0 1,
  .jump 23,
  .jump 0,
  .loadAbsolute 12 2,
  .jumpIf .equal 0x86dd 0 8,
  .loadAbsolute 20 1,
  .jumpIf .equal 0x84 2 0,
  .jumpIf .equal 0x06 1 0,
  .jumpIf .equal 0x11 0 17,
  .loadAbsolute 54 2,
  .jumpIf .equal 0x17 14 0,
  .loadAbsolute 56 2,
  .jumpIf .equal 0x17 12 13,
  .jumpIf .equal 0x800 0 12,
  .loadAbsolute 23 1,
  .jumpIf .equal 0x84 2 0,
  .jumpIf .equal 0x06 1 0,
  .jumpIf .equal 0x11 0 8,
  .loadAbsolute 20 2,
  .jumpIf .bitsSet 0x1fff 6 0,
  .loadMemShift 14,
  .loadIndirect 14 2,
  .jumpIf .equal 0x17 2 0,
  .loadIndirect 16 2,
  .jumpIf .equal 0x17 0 1,
  .ret 262144,
  .ret 0 ]

/-- The 18-instruction `net 192.168.0.0/24` program of the test table. -/
def netSlash24Program : List Instr := [
  .loadAbsolute 12 2,
  .jumpIf .equal 0x800 0 6,
  .loadAbsolute 26 4,
  .aluAnd 0xffffff00,
  .jumpIf .equal 0xc0a80000 11 0,
  .loadAbsolute 30 4,
  .aluAnd 0xffffff00,
  .jumpIf .equal 0xc0a80000 8 9,
  .jumpIf .equal 0x806 1 0,
  .jumpIf .equal 0x8035 0 7,
  .loadAbsolute 28 4,
  .aluAnd 0xffffff00,
  .jumpIf .equal 0xc0a80000 3 0,
  .loadAbsolute 38 4,
  .aluAnd 0xffffff00,
  .jumpIf .equal 0xc0a80000 0 1,
  .ret 262144,
  .ret 0 ]

/-- A 34-byte Ethernet frame carrying EtherType `0x0800` and IPv4 source
address `10.100.100.100` — a match for the host check. -/
def matchingHostFrame : List Nat :=
  List.replicate 12 0 ++ [8, 0] ++ List.replicate 12 0
    ++ [10, 100, 100, 100] ++ List.replicate 4 0

/-- An all-zero 34-byte frame: no EtherType, no address, no port matches. -/
def nonMatchingFrame : List Nat := List.replicate 34 0

/-! ## Claim theorems -/

/-- C1, counterexample: compiling `host 10.100.100.100 or port 23` for an
Ethernet link yields 38 instructions, not the 35 of the claim (the host
block has 14, the port block 24, and stitching preserves the total). -/
theorem hostOrPort_not_thirtyFive :
    (modelCompileExpression "host 10.100.100.100 or port 23").map List.length
      = .ok 38
    ∧ (38 : Nat) ≠ 35 := by
  refine ⟨by decide, by decide⟩

/-- C1 (amended): compiling `host 10.100.100.100 or port 23` for an Ethernet
link yields an OR-composite program of exactly 38 instructions whose first
twelve instructions are the host-check block; running the bytecode against a
matching frame returns `0x40000` and against a non-matching frame returns
`0`. -/
theorem hostOrPort_program_correct :
    compileExpr (fields "host 10.100.100.100 or port 23")
      = .composite
          [ { kind := .host, direction := .srcOrDst, id := "10.100.100.100" },
            { kind := .port, direction := .srcOrDst, id := "23" } ] false
    ∧ modelCompileExpression "host 10.100.100.100 or port 23" = .ok hostOrPortProgram
    ∧ hostOrPortProgram.length = 38
    ∧ hostOrPortProgram.take 12 = hostTenProgram.take 12
    ∧ vmRun hostOrPortProgram matchingHostFrame = some 0x40000
    ∧ vmRun hostOrPortProgram nonMatchingFrame = some 0 := by
  refine ⟨by decide, by decide, by decide, by decide, by decide, by decide⟩

/-- C2, counterexample: for the two-child OR composite of
`host 10.100.100.100 or port 23` the emitted length is 38 — the sum of the
announced sizes 14 and 24 — while the claim's formula
`Σsize + 2(n−1) + 2` gives 42. -/
theorem composite_size_formula_counterexample :
    (filterCompile (.composite
        [ { kind := .host, direction := .srcOrDst, id := "10.100.100.100" },
          { kind := .port, direction := .srcOrDst, id := "23" } ] false)).map
        List.length = .ok 38
    ∧ primitiveSize { kind := .host, direction := .srcOrDst, id := "10.100.100.100" }
        + primitiveSize { kind := .port, direction := .srcOrDst, id := "23" }
        + 2 * (2 - 1) + 2 = 42
    ∧ (38 : Nat) ≠ 42 := by
  refine ⟨by decide, by decide, by decide⟩

/-- C2 (amended): for every composite whose children all announce at least
their two terminal returns, the emitted size equals the sum of the
children's announced sizes (announced sizes include the terminal pair),
equivalently `Σ(size(Cᵢ) − 2) + 2(n−1) + 2`. -/
theorem composite_compile_size (isAnd : Bool) (size : Nat)
    (children : List (List Instr))
    (hne : children ≠ []) (hlen : ∀ c ∈ children, 2 ≤ c.length) :
    (stitch isAnd size [] children).length = (children.map List.length).sum
    ∧ (children.map List.length).sum
        = (children.map (fun c => c.length - 2)).sum + 2 * (children.length - 1) + 2 := by
  constructor
  · simpa using stitch_length isAnd size children [] hne hlen
  · have h := sum_length_split children hlen
    have hn : 0 < children.length := List.length_pos.mpr hne
    have h2 : 2 ≤ children.length * 2 := by omega
    omega

/-- C2 witness: the general size identity applied to the two concrete child
programs of `host 10.100.100.100 or port 23`. -/
theorem composite_compile_size_witness :
    (stitch false 38 [] [hostTenProgram, portTwentyThreeProgram]).length
        = ([hostTenProgram, portTwentyThreeProgram].map List.length).sum
    ∧ ([hostTenProgram, portTwentyThreeProgram].map List.length).sum
        = ([hostTenProgram, portTwentyThreeProgram].map (fun c => c.length - 2)).sum
            + 2 * ([hostTenProgram, portTwentyThreeProgram].length - 1) + 2 :=
  composite_compile_size false 38 [hostTenProgram, portTwentyThreeProgram]
    (by decide) (by decide)

/-- C3: a stitched composite stream whose children obey the emitter exit
convention (at least two instructions, ending in the terminal return pair —
possibly swapped under negation — with all jumps inside the child) ends with
exactly the terminal return pair and keeps every jump inside the stream. -/
theorem composite_terminal_and_jumps (isAnd : Bool)
    (children : List (List Instr)) (size : Nat)
    (hne : children ≠ [])
    (hsz : size = (children.map List.length).sum)
    (hcap : size ≤ 255)
    (hlen : ∀ c ∈ children, 2 ≤ c.length)
    (hterm : ∀ c ∈ children, endsWithTerminalPair c)
    (hjb : ∀ c ∈ children, jumpsInBounds c) :
    endsWithTerminalPair (stitch isAnd size [] children)
    ∧ jumpsInBounds (stitch isAnd size [] children) := by
  have hlenR := stitch_length isAnd size children [] hne hlen
  have hRlen : (stitch isAnd size [] children).length = size := by
    rw [hlenR]
    simpa using hsz.symm
  have hsz32 : size < 2 ^ 32 := lt_of_le_of_lt hcap (by norm_num)
  constructor
  · obtain ⟨c, hc⟩ : ∃ c, children.getLast? = some c := by
      cases children with
      | nil => exact absurd rfl hne
      | cons a l => exact ⟨(a :: l).getLast (by simp), List.getLast?_eq_getLast _ _⟩
    obtain ⟨pre, hpre⟩ := stitch_suffix isAnd size children [] c hc
    have hcmem : c ∈ children := List.mem_of_mem_getLast? hc
    have hc2 := hlen c hcmem
    have hcterm := hterm c hcmem
    unfold endsWithTerminalPair at hcterm ⊢
    rw [hpre] at hRlen ⊢
    have hplen : (pre ++ c).length = pre.length + c.length := by simp
    have hd : (pre ++ c).length - 2 = pre.length + (c.length - 2) := by omega
    rw [hd, List.drop_append]
    exact hcterm
  · unfold jumpsInBounds
    rw [hRlen]
    intro i hi
    exact stitch_bounds_aux isAnd size hsz32 children [] hne (by simpa using hsz)
      hlen hjb (by simp) i (by omega)

/-- C3 witness: the terminal-pair and jump-bound invariant at the concrete
OR composite of `host 10.100.100.100 or port 23`. -/
theorem composite_terminal_and_jumps_witness :
    endsWithTerminalPair (stitch false 38 [] [hostTenProgram, portTwentyThreeProgram])
    ∧ jumpsInBounds (stitch false 38 [] [hostTenProgram, portTwentyThreeProgram]) :=
  composite_terminal_and_jumps false [hostTenProgram, portTwentyThreeProgram] 38
    (by decide) (by decide) (by decide) (by decide) (by decide) (by decide)

/-- C4 (code bug): `Expression.Compile` does not merge the merge-eligible
pair `udp and port 23`; it returns the two-primitive AND composite, which is
a different filter from the single merged primitive that `udp port 23`
yields (and that the repository's own test table expects for
`udp and port 23`). -/
theorem udp_and_port_not_merged :
    compileExpr (fields "udp and port 23")
      = .composite
          [ { direction := .srcOrDst, protocol := .ip, subProtocol := .udp },
            { kind := .port, direction := .srcOrDst, id := "23" } ] true
    ∧ compileExpr (fields "udp port 23")
      = .prim { kind := .port, direction := .srcOrDst, protocol := .ip,
                subProtocol := .udp, id := "23" }
    ∧ compileExpr (fields "udp and port 23") ≠ compileExpr (fields "udp port 23") := by
  refine ⟨by decide, by decide, by decide⟩

/-- C5, counterexample: compiling `net 192.168.0.0/24` for an Ethernet link
emits 18 instructions (the IPv4 section plus the ARP/RARP section, each with
netmask ALU steps), not the 14 of the claim. -/
theorem net_slash24_not_fourteen :
    (modelCompileExpression "net 192.168.0.0/24").map List.length = .ok 18
    ∧ (18 : Nat) ≠ 14 := by
  refine ⟨by decide, by decide⟩

/-- C5 (amended): compiling `net 192.168.0.0/24` for an Ethernet link emits
exactly 18 instructions, beginning with `LoadAbsolute` at offset 12 of size
2, a jump-if-equal on `0x0800` with skip-false 6, and a `LoadAbsolute` at
offset 26. -/
theorem net_slash24_program_correct :
    modelCompileExpression "net 192.168.0.0/24" = .ok netSlash24Program
    ∧ netSlash24Program.length = 18
    ∧ netSlash24Program.take 3
        = [.loadAbsolute 12 2, .jumpIf .equal 0x0800 0 6, .loadAbsolute 26 4] := by
  refine ⟨by decide, by decide, by decide⟩

/-- C6: the empty filter string (for which `NewExpression` returns `nil`)
compiles to exactly the one-instruction accept-all program
`[RET(ACCEPT)]`. -/
theorem empty_expression_accept_all :
    newExpression "" = none
    ∧ modelCompileExpression "" = .ok [returnKeep]
    ∧ returnKeep = .ret 0x40000
    ∧ [returnKeep].length = 1 := by
  refine ⟨by decide, by decide, by decide, by decide⟩

/-- C8: a `net` primitive whose CIDR has address bits extending past the
mask bits is rejected with the invalid-network error and no bytecode: the
parsed primitive is the `net 192.168.0.0/10` primitive and its compilation
is the error, not an instruction stream. -/
theorem net_bits_past_mask_rejected :
    compileExpr (fields "net 192.168.0.0/10")
      = .prim { kind := .net, direction := .srcOrDst, id := "192.168.0.0/10" }
    ∧ modelCompileExpression "net 192.168.0.0/10"
      = .error "invalid network, network bits extend past mask bits: 192.168.0.0/10" := by
  refine ⟨by decide, by decide⟩

/-- C7, counterexample: the first (and only) primitive of the expression
`abc` — a bare id with no qualifiers — keeps direction UNSET after
`Expression.Compile` applies the defaulting pass, because
`setPrimitiveDefaults` returns an all-unset first primitive unchanged. -/
theorem bare_id_keeps_direction_unset :
    compileExpr (fields "abc") = .prim { id := "abc" }
    ∧ ({ id := "abc" } : Primitive).direction = .unset
    ∧ FilterDirection.unset ≠ FilterDirection.srcOrDst := by
  refine ⟨by decide, by decide, by decide⟩

/-- C7 (amended): after the defaulting pass a primitive's direction is UNSET
exactly when it is a first primitive with all four qualifier enums UNSET
(the early return); any other primitive whose own direction was UNSET is
assigned SRC_OR_DST, except that an all-unset primitive with a predecessor
first inherits the predecessor's direction and is assigned SRC_OR_DST only
when the inherited direction is itself UNSET. -/
theorem defaults_direction_src_or_dst (p : Primitive) (lastPrimitive : Option Primitive) :
    ((setPrimitiveDefaults p lastPrimitive).direction = .unset
        ↔ allUnsetQualifiers p ∧ lastPrimitive = none)
    ∧ (¬ allUnsetQualifiers p → p.direction = .unset →
        (setPrimitiveDefaults p lastPrimitive).direction = .srcOrDst)
    ∧ (∀ lp, allUnsetQualifiers p → lastPrimitive = some lp →
        (setPrimitiveDefaults p lastPrimitive).direction
          = if lp.direction = .unset then .srcOrDst else lp.direction) := by
  unfold setPrimitiveDefaults
  by_cases h : allUnsetQualifiers p
  · cases lastPrimitive with
    | none => simp [h, h.1]
    | some lp =>
      simp [h, applyDefaultsRest_direction]
      split_ifs <;> simp_all
  · simp [h, applyDefaultsRest_direction]
    split_ifs <;> simp_all

/-- C7 witness: a primitive with a kind qualifier and direction UNSET is
assigned SRC_OR_DST by the defaulting pass. -/
theorem defaults_direction_src_or_dst_witness :
    ¬ allUnsetQualifiers { kind := .host, id := "abc" }
    ∧ (setPrimitiveDefaults { kind := .host, id := "abc" } none).direction = .srcOrDst :=
  ⟨by decide,
    (defaults_direction_src_or_dst { kind := .host, id := "abc" } none).2.1
      (by decide) (by decide)⟩

/-- C9: a `host` primitive whose id carries a CIDR suffix is rejected with
the invalid-host-with-CIDR error, while the same CIDR under `net` compiles
fine. -/
theorem host_with_cidr_rejected :
    compileExpr (fields "host 10.100.100.100/24")
      = .prim { kind := .host, direction := .srcOrDst, id := "10.100.100.100/24" }
    ∧ modelCompileExpression "host 10.100.100.100/24"
      = .error "invalid host address with CIDR: 10.100.100.100/24"
    ∧ modelCompileExpression "net 192.168.0.0/24" = .ok netSlash24Program := by
  refine ⟨by decide, by decide, by decide⟩

/-- C10: whenever an expression parses to two or more primitives,
`Expression.Compile` returns the single flat composite of all the defaulted
primitives, in order, and its one AND/OR flag is the value of the last
joiner element of the expression (every joiner overwrites the flag, so
earlier differing joiners leave no trace). -/
theorem expression_compile_flat_composite (ts : List String)
    (h2 : 2 ≤ (defaultedPrimitives (elements ts) []).length) :
    compileExpr ts
      = .composite (defaultedPrimitives (elements ts) [])
          (lastJoiner (elements ts) false) := by
  unfold compileExpr compileFromElements
  rw [compile_fold_eq]
  rcases hd : defaultedPrimitives (elements ts) [] with _ | ⟨p, _ | ⟨q, l⟩⟩ <;>
    simp_all

/-- C10 witness: in `host a and host b or host c` the later `or` overwrites
the earlier `and`, and the result is the flat three-primitive OR
composite. -/
theorem expression_compile_flat_composite_witness :
    compileExpr (fields "host a and host b or host c")
      = .composite
          (defaultedPrimitives (elements (fields "host a and host b or host c")) [])
          (lastJoiner (elements (fields "host a and host b or host c")) false)
    ∧ lastJoiner (elements (fields "host a and host b or host c")) false = false :=
  ⟨expression_compile_flat_composite (fields "host a and host b or host c") (by decide),
    by decide⟩

end GoPcap
